import Mathlib

/-!
Verification of the Sunder front-end (src/tir.c, src/resolve.c, src/eval.c)
against its natural-language specification.  Each section shallowly embeds
the C code it is about: pure C functions become Lean functions, the global
mutable tables (type registry, template-instance caches, loaded-module
cache, symbol tables) become explicit state records threaded through the
functions, and calls to `fatal(...)` become `Except` errors carrying the
data the diagnostic message names.  C pointer identity of arena-allocated
nodes is modelled by natural-number identifiers handed out by a counter in
the state: a fresh allocation takes the current counter value, so two
nodes are the same in-memory object exactly when their identifiers agree.
-/

namespace Sunder

/-- Association-list lookup keyed by interned strings, returning the first
binding.  Models lookup in the C table structures (autil_map keyed by
interned name pointers); insertion in the embeddings below only ever
prepends a binding for a key that is absent, or intentionally shadows. -/
def rlookup {α : Type} : List (String × α) → String → Option α
  | [], _ => none
  | (k, v) :: rest, n => if k = n then some v else rlookup rest n

theorem rlookup_cons {α : Type} (k : String) (v : α) (rest : List (String × α)) (n : String) :
    rlookup ((k, v) :: rest) n = if k = n then some v else rlookup rest n := rfl

/-! ## Type registry (src/tir.c): canonicalized construction of compound types

The builders type_unique_pointer, type_unique_array, type_unique_slice and
type_unique_function (src/tir.c lines 216 to 299) all follow the same
pattern: build the candidate type, whose canonical name is computed by the
corresponding type_new_* constructor (src/tir.c lines 132 to 214), look the
name up in the global symbol table, return the existing type when the name
is already bound, and otherwise register the fresh type under its name. -/

/-- Arguments of the four unique builders.  Base types and parameter and
return types are given by their canonical names, since the name formulas in
type_new_pointer, type_new_array, type_new_slice and type_new_function
consume only the name of each constituent type. -/
inductive TypeKey where
  | pointer (base : String)
  | array (count : Nat) (base : String)
  | slice (base : String)
  | function (params : List String) (ret : String)
deriving DecidableEq

/-- Canonical name of the constructed type, following the format strings of
type_new_pointer (`*%s`), type_new_array (`[%zu]%s`), type_new_slice
(`[]%s`) and type_new_function (`func(` params `) ` return). -/
def TypeKey.canonicalName : TypeKey → String
  | .pointer base => "*" ++ base
  | .array count base => "[" ++ toString count ++ "]" ++ base
  | .slice base => "[]" ++ base
  | .function params ret => "func(" ++ String.intercalate ", " params ++ ") " ++ ret

/-- Global name-to-type table of the context (context()->global_symbol_table
as used by the unique builders), with the freshness counter that stands for
arena allocation: a type registered when the counter was n is the in-memory
object identified by n. -/
structure Registry where
  table : List (String × Nat)
  next : Nat

/-- Common body of the four unique builders (src/tir.c lines 216 to 299):
look the canonical name up in the global table; if present return the
cached type, otherwise register the freshly built type under its name and
return it. -/
def uniqueBuild (key : TypeKey) (r : Registry) : Nat × Registry :=
  match rlookup r.table key.canonicalName with
  | some existing => (existing, r)
  | none => (r.next, ⟨(key.canonicalName, r.next) :: r.table, r.next + 1⟩)

/-- Embeds type_unique_pointer (src/tir.c lines 238 to 257). -/
def type_unique_pointer (base : String) (r : Registry) : Nat × Registry :=
  uniqueBuild (.pointer base) r

/-- Embeds type_unique_array (src/tir.c lines 259 to 278). -/
def type_unique_array (count : Nat) (base : String) (r : Registry) : Nat × Registry :=
  uniqueBuild (.array count base) r

/-- Embeds type_unique_slice (src/tir.c lines 280 to 299). -/
def type_unique_slice (base : String) (r : Registry) : Nat × Registry :=
  uniqueBuild (.slice base) r

/-- Embeds type_unique_function (src/tir.c lines 216 to 236). -/
def type_unique_function (params : List String) (ret : String) (r : Registry) : Nat × Registry :=
  uniqueBuild (.function params ret) r

/-- Well-formedness of the registry maintained by the builders: every
registered type identifier is older than the counter, and distinct
canonical names are bound to distinct types. -/
def Registry.wf (r : Registry) : Prop :=
  (∀ n i, rlookup r.table n = some i → i < r.next) ∧
  (∀ n m i j, rlookup r.table n = some i → rlookup r.table m = some j → n ≠ m → i ≠ j)

theorem Registry.wf_empty : Registry.wf ⟨[], 0⟩ := by
  constructor
  · intro n i h
    simp [rlookup] at h
  · intro n m i j h
    simp [rlookup] at h

theorem uniqueBuild_found (key : TypeKey) (r : Registry) (i : Nat)
    (h : rlookup r.table key.canonicalName = some i) :
    uniqueBuild key r = (i, r) := by
  unfold uniqueBuild
  rw [h]

theorem uniqueBuild_fresh (key : TypeKey) (r : Registry)
    (h : rlookup r.table key.canonicalName = none) :
    uniqueBuild key r = (r.next, ⟨(key.canonicalName, r.next) :: r.table, r.next + 1⟩) := by
  unfold uniqueBuild
  rw [h]

theorem uniqueBuild_lookup (key : TypeKey) (r : Registry) :
    rlookup (uniqueBuild key r).2.table key.canonicalName = some (uniqueBuild key r).1 := by
  cases h : rlookup r.table key.canonicalName with
  | none => rw [uniqueBuild_fresh key r h]; simp [rlookup]
  | some existing => rw [uniqueBuild_found key r existing h]; exact h

theorem uniqueBuild_wf (key : TypeKey) (r : Registry) (hwf : r.wf) :
    (uniqueBuild key r).2.wf := by
  obtain ⟨hbound, hinj⟩ := hwf
  cases h : rlookup r.table key.canonicalName with
  | some existing =>
    rw [uniqueBuild_found key r existing h]
    exact ⟨hbound, hinj⟩
  | none =>
    rw [uniqueBuild_fresh key r h]
    dsimp only
    constructor
    · intro n i hn
      rw [rlookup_cons] at hn
      show i < r.next + 1
      by_cases hk : key.canonicalName = n
      · simp [hk] at hn
        omega
      · simp [hk] at hn
        have := hbound n i hn
        omega
    · intro n m i j hn hm hnm
      rw [rlookup_cons] at hn hm
      by_cases hkn : key.canonicalName = n <;> by_cases hkm : key.canonicalName = m
      · exact absurd (hkn ▸ hkm) hnm
      · simp [hkn] at hn
        simp [hkm] at hm
        have := hbound m j hm
        omega
      · simp [hkn] at hn
        simp [hkm] at hm
        have := hbound n i hn
        omega
      · simp [hkn] at hn
        simp [hkm] at hm
        exact hinj n m i j hn hm hnm

/-- C1.  Type canonicalization: for any two sequenced calls to the unique
type builders (type_unique_pointer, type_unique_array, type_unique_slice,
type_unique_function, all instances of uniqueBuild), the returned type
pointers are equal exactly when the constructed canonical names are equal:
the second call returns the entry cached in the global name-to-type table
when the names agree, and a type distinct from the first result when they
differ. -/
theorem type_canonicalization (r : Registry) (hwf : r.wf) (k1 k2 : TypeKey) :
    (uniqueBuild k2 (uniqueBuild k1 r).2).1 = (uniqueBuild k1 r).1 ↔
      k2.canonicalName = k1.canonicalName := by
  constructor
  · intro heq
    by_contra hne
    have hwf1 : (uniqueBuild k1 r).2.wf := uniqueBuild_wf k1 r hwf
    have h1 : rlookup (uniqueBuild k1 r).2.table k1.canonicalName =
        some (uniqueBuild k1 r).1 := uniqueBuild_lookup k1 r
    obtain ⟨hbound, hinj⟩ := hwf1
    cases h2 : rlookup (uniqueBuild k1 r).2.table k2.canonicalName with
    | some existing =>
      rw [uniqueBuild_found k2 (uniqueBuild k1 r).2 existing h2] at heq
      exact hinj k2.canonicalName k1.canonicalName existing (uniqueBuild k1 r).1 h2 h1 hne heq
    | none =>
      rw [uniqueBuild_fresh k2 (uniqueBuild k1 r).2 h2] at heq
      have := hbound k1.canonicalName (uniqueBuild k1 r).1 h1
      simp only at heq
      omega
  · intro heq
    have h1 : rlookup (uniqueBuild k1 r).2.table k2.canonicalName =
        some (uniqueBuild k1 r).1 := heq ▸ uniqueBuild_lookup k1 r
    rw [uniqueBuild_found k2 (uniqueBuild k1 r).2 (uniqueBuild k1 r).1 h1]

/-- Witness for C1: in a fresh registry, building the pointer type of u8
twice yields the same type, while building the slice type of u8 afterwards
yields a different type. -/
theorem type_canonicalization_witness :
    ((uniqueBuild (.pointer "u8") (uniqueBuild (.pointer "u8") ⟨[], 0⟩).2).1 =
        (uniqueBuild (.pointer "u8") ⟨[], 0⟩).1) ∧
      ¬ ((uniqueBuild (.slice "u8") (uniqueBuild (.pointer "u8") ⟨[], 0⟩).2).1 =
        (uniqueBuild (.pointer "u8") ⟨[], 0⟩).1) := by
  constructor
  · exact (type_canonicalization ⟨[], 0⟩ Registry.wf_empty (.pointer "u8") (.pointer "u8")).mpr rfl
  · intro h
    have := (type_canonicalization ⟨[], 0⟩ Registry.wf_empty (.pointer "u8") (.slice "u8")).mp h
    simp [TypeKey.canonicalName] at this

/-! ## Symbol tables (src/tir.c lines 513 to 532, src/resolve.c lines 1130 to 1187)

symbol_table_insert raises a fatal redeclaration diagnostic, citing the
location of the previously declared symbol, whenever the name is already
bound locally.  The import-merge path merge_symbol_table guards each
insertion with a pointer comparison against the existing binding: the very
same symbol instance arriving again (the same import pulled in via two
paths) is skipped without touching the table, while a different symbol
instance is passed to symbol_table_insert and so produces the diagnostic.
The embedding models one element step of the merge loop for non-namespace
symbols (the namespace branch unions sub-tables and is not involved in the
redeclaration/no-op behaviour claimed here). -/

/-- Source location carried by every symbol (path and line are the parts
the redeclaration diagnostic prints). -/
structure SrcLoc where
  path : String
  line : Nat
deriving DecidableEq

/-- Symbol instance.  The identifier stands for the C pointer identity of
the arena-allocated symbol: two symbols are the same instance exactly when
the embedded records are equal. -/
structure PSym where
  id : Nat
  loc : SrcLoc
deriving DecidableEq

/-- Redeclaration diagnostic data: the offending name and the location of
the prior declaration that the fatal message cites. -/
structure RedeclDiag where
  name : String
  prior : SrcLoc
deriving DecidableEq

/-- Embeds symbol_table_insert (src/tir.c lines 513 to 532): a local lookup
hit is a fatal redeclaration citing the prior location, otherwise the
binding is added. -/
def symbol_table_insert (t : List (String × PSym)) (name : String) (s : PSym) :
    Except RedeclDiag (List (String × PSym)) :=
  match rlookup t name with
  | some localSym => .error ⟨name, localSym.loc⟩
  | none => .ok ((name, s) :: t)

/-- Embeds the non-namespace element step of merge_symbol_table
(src/resolve.c lines 1177 to 1185): the symbol is inserted only when the
local table has no binding for the name or binds a different symbol
instance; the identical instance is skipped. -/
def merge_symbol_table_step (t : List (String × PSym)) (name : String) (s : PSym) :
    Except RedeclDiag (List (String × PSym)) :=
  match rlookup t name with
  | some existing => if existing = s then .ok t else symbol_table_insert t name s
  | none => symbol_table_insert t name s

/-- C3.  Inserting a symbol (via the import-merge insertion step) under a
name locally bound to a different symbol instance fails with a
redeclaration diagnostic citing the prior declaration location; inserting
the identical symbol instance again is a no-op that leaves the table
unchanged and raises no error; and an unbound name simply receives the
binding. -/
theorem symbol_table_redeclaration (t : List (String × PSym)) (name : String) (s : PSym) :
    (∀ e, rlookup t name = some e → e ≠ s →
      merge_symbol_table_step t name s = .error ⟨name, e.loc⟩) ∧
    (rlookup t name = some s → merge_symbol_table_step t name s = .ok t) ∧
    (rlookup t name = none → merge_symbol_table_step t name s = .ok ((name, s) :: t)) := by
  refine ⟨?_, ?_, ?_⟩
  · intro e he hne
    unfold merge_symbol_table_step
    rw [he]
    simp only [if_neg hne]
    unfold symbol_table_insert
    rw [he]
  · intro he
    unfold merge_symbol_table_step
    rw [he]
    simp
  · intro he
    unfold merge_symbol_table_step symbol_table_insert
    rw [he]

/-- Witness for C3 at a concrete table: the table binding a to symbol 0
rejects a different symbol 1 under a citing the prior location, accepts
symbol 0 again as a no-op, and accepts symbol 1 under the unbound name b. -/
theorem symbol_table_redeclaration_witness :
    (merge_symbol_table_step [("a", ⟨0, "m.sunder", 3⟩)] "a" ⟨1, "n.sunder", 7⟩ =
      .error ⟨"a", "m.sunder", 3⟩) ∧
    (merge_symbol_table_step [("a", ⟨0, "m.sunder", 3⟩)] "a" ⟨0, "m.sunder", 3⟩ =
      .ok [("a", ⟨0, "m.sunder", 3⟩)]) ∧
    (merge_symbol_table_step [("a", ⟨0, "m.sunder", 3⟩)] "b" ⟨1, "n.sunder", 7⟩ =
      .ok [("b", ⟨1, "n.sunder", 7⟩), ("a", ⟨0, "m.sunder", 3⟩)]) := by
  obtain ⟨h1, h2, h3⟩ :=
    symbol_table_redeclaration [("a", ⟨0, "m.sunder", 3⟩)] "a" ⟨1, "n.sunder", 7⟩
  obtain ⟨-, h2x, -⟩ :=
    symbol_table_redeclaration [("a", ⟨0, "m.sunder", 3⟩)] "a" ⟨0, "m.sunder", 3⟩
  obtain ⟨-, -, h3x⟩ :=
    symbol_table_redeclaration [("a", ⟨0, "m.sunder", 3⟩)] "b" ⟨1, "n.sunder", 7⟩
  refine ⟨h1 ⟨0, "m.sunder", 3⟩ (by simp [rlookup]) (by decide), h2x (by simp [rlookup]),
    h3x (by simp [rlookup])⟩

/-! ## Function completion (src/resolve.c lines 1921 to 1977)

After resolving a function body, complete_function rejects a function whose
return type is not void when the body statement list is empty or its last
statement is not a return statement.  The check looks only at the kind tag
of the final statement, so an if/else chain whose arms all return is still
rejected, exactly as the comment block above the check spells out. -/

/-- Statement of the typed IR, reduced to what the final-return check of
complete_function inspects: the kind tag of the statement, where an if
statement carries its conditional arms (each a block of statements) so the
rejected if/else-with-returns shape can be expressed. -/
inductive RStmt where
  | sreturn
  | sif (arms : List (List RStmt))
  | sother

/-- Kind test matching stmts[count - 1]->kind == STMT_RETURN. -/
def RStmt.isReturn : RStmt → Bool
  | .sreturn => true
  | _ => false

/-- Last-statement condition of complete_function: the C code computes
count == 0 || stmts[count - 1]->kind != STMT_RETURN; this is its negation. -/
def ends_with_return (stmts : List RStmt) : Bool :=
  match stmts.getLast? with
  | some s => s.isReturn
  | none => false

/-- Embeds the final-return check of complete_function (src/resolve.c lines
1964 to 1977): when the return type is not void and the body does not end
with a return statement, resolution fails. -/
def complete_function_check (retVoid : Bool) (stmts : List RStmt) : Except Unit Unit :=
  if !retVoid && !ends_with_return stmts then .error () else .ok ()

/-- C4.  A non-void function is rejected unless its last statement is a
return: in particular a body ending in an if/else chain in which every arm
ends with a return is still rejected, while a void function passes without
a final return and a non-void function ending with a return passes. -/
theorem non_void_return_enforcement :
    (∀ stmts : List RStmt, ends_with_return stmts = false →
      complete_function_check false stmts = .error ()) ∧
    (∀ (stmts : List RStmt) (arms : List (List RStmt)),
      (∀ arm ∈ arms, ends_with_return arm = true) →
      complete_function_check false (stmts ++ [.sif arms]) = .error ()) ∧
    (∀ stmts : List RStmt, complete_function_check true stmts = .ok ()) ∧
    (∀ stmts : List RStmt, complete_function_check false (stmts ++ [.sreturn]) = .ok ()) := by
  refine ⟨?_, ?_, ?_, ?_⟩
  · intro stmts h
    simp [complete_function_check, h]
  · intro stmts arms _
    simp [complete_function_check, ends_with_return, RStmt.isReturn]
  · intro stmts
    simp [complete_function_check]
  · intro stmts
    simp [complete_function_check, ends_with_return, RStmt.isReturn]

/-- Witness for C4: the body consisting of a single if/else whose two arms
both end in return statements is rejected for a non-void function, while
the empty body of a void function and a body ending in return for a
non-void function are accepted. -/
theorem non_void_return_enforcement_witness :
    complete_function_check false [.sif [[.sreturn], [.sreturn]]] = .error () ∧
    complete_function_check true [] = .ok () ∧
    complete_function_check false [.sother, .sreturn] = .ok () := by
  obtain ⟨-, h2, h3, h4⟩ := non_void_return_enforcement
  refine ⟨?_, h3 [], ?_⟩
  · have := h2 [] [[.sreturn], [.sreturn]] (by decide)
    simpa using this
  · have := h4 [.sother]
    simpa using this

/-! ## Integer types and their bounds

The typed integer kinds of enum type_kind (src/tir.c) with the min/max big
integers each type_new_* constructor attaches (src/tir.c lines 40 to 130). -/

/-- Typed (sized) integer kinds: TYPE_U8 through TYPE_SSIZE. -/
inductive IntKind where
  | u8 | s8 | u16 | s16 | u32 | s32 | u64 | s64 | usize | ssize
deriving DecidableEq

/-- Modelled from the spec: minimal value of each typed integer kind.  The
min/max big integers live in the process context (context()->u8_min and so
on), whose initialisation is outside src/; the spec fixes them as U8
[0, 255], S8 [-128, 127] and so on with USize/SSize 64-bit. -/
def IntKind.min : IntKind → Int
  | .u8 => 0
  | .s8 => -(2 ^ 7)
  | .u16 => 0
  | .s16 => -(2 ^ 15)
  | .u32 => 0
  | .s32 => -(2 ^ 31)
  | .u64 => 0
  | .s64 => -(2 ^ 63)
  | .usize => 0
  | .ssize => -(2 ^ 63)

/-- Modelled from the spec: maximal value of each typed integer kind. -/
def IntKind.max : IntKind → Int
  | .u8 => 2 ^ 8 - 1
  | .s8 => 2 ^ 7 - 1
  | .u16 => 2 ^ 16 - 1
  | .s16 => 2 ^ 15 - 1
  | .u32 => 2 ^ 32 - 1
  | .s32 => 2 ^ 31 - 1
  | .u64 => 2 ^ 64 - 1
  | .s64 => 2 ^ 63 - 1
  | .usize => 2 ^ 64 - 1
  | .ssize => 2 ^ 63 - 1

theorem IntKind.min_le_max (k : IntKind) : k.min ≤ k.max := by
  cases k <;> decide

/-! ## Integer literal resolution (src/resolve.c lines 2548 to 2611 and
3438 to 3473, src/tir.c lines 717 to 775)

resolve_expr_integer maps the literal suffix to a type through
integer_literal_suffix_to_type and builds the typed literal node, whose
constructor (tir_expr_new_integer) performs the range check against the
byte bounds or the type min/max.  resolve_expr_unary recognises a unary +
or - applied directly to an integer literal and folds the sign into the
big integer before building the node, so the range check sees the signed
value. -/

/-- Type of a resolved integer literal: byte, a typed integer, or the
untyped integer used when the suffix is empty. -/
inductive ILType where
  | byte
  | int (k : IntKind)
  | untyped
deriving DecidableEq

/-- Diagnostics raised during literal resolution, carrying the data the
fatal messages print: the unknown suffix, or the literal value together
with the violated bound. -/
inductive LitDiag where
  | unknownSuffix (s : String)
  | belowMin (lit bound : Int)
  | aboveMax (lit bound : Int)
deriving DecidableEq

/-- Embeds integer_literal_suffix_to_type (src/resolve.c lines 2548 to
2592): the empty suffix selects the untyped integer, y selects byte, u and
s select usize and ssize, the sized names select the matching typed
integer, and any other suffix is a fatal diagnostic. -/
def integer_literal_suffix_to_type (suffix : String) : Except LitDiag ILType :=
  if suffix = "" then .ok .untyped
  else if suffix = "y" then .ok .byte
  else if suffix = "u8" then .ok (.int .u8)
  else if suffix = "s8" then .ok (.int .s8)
  else if suffix = "u16" then .ok (.int .u16)
  else if suffix = "s16" then .ok (.int .s16)
  else if suffix = "u32" then .ok (.int .u32)
  else if suffix = "s32" then .ok (.int .s32)
  else if suffix = "u64" then .ok (.int .u64)
  else if suffix = "s64" then .ok (.int .s64)
  else if suffix = "u" then .ok (.int .usize)
  else if suffix = "s" then .ok (.int .ssize)
  else .error (.unknownSuffix suffix)

/-- Embeds the range checks of tir_expr_new_integer (src/tir.c lines 717
to 775): a byte literal is checked against the u8 bounds and a typed
integer literal against its type min/max; the untyped integer has no
bounds to check. -/
def expr_new_integer (t : ILType) (value : Int) : Except LitDiag (ILType × Int) :=
  match t with
  | .byte =>
    if value < 0 then .error (.belowMin value 0)
    else if value > 2 ^ 8 - 1 then .error (.aboveMax value (2 ^ 8 - 1))
    else .ok (t, value)
  | .int k =>
    if value < k.min then .error (.belowMin value k.min)
    else if value > k.max then .error (.aboveMax value k.max)
    else .ok (t, value)
  | .untyped => .ok (t, value)

/-- Embeds resolve_expr_integer (src/resolve.c lines 2594 to 2611):
resolve the suffix to a type, then build the range-checked literal node. -/
def resolve_expr_integer (suffix : String) (value : Int) : Except LitDiag (ILType × Int) :=
  match integer_literal_suffix_to_type suffix with
  | .error d => .error d
  | .ok t => expr_new_integer t value

/-- Embeds the sign-folding branch of resolve_expr_unary (src/resolve.c
lines 3445 to 3473): a unary + or - applied directly to an integer literal
negates the big integer when the operator is -, then resolves the suffix
and builds the literal node from the signed value. -/
def resolve_expr_unary_sign (isNeg : Bool) (suffix : String) (value : Int) :
    Except LitDiag (ILType × Int) :=
  let value := if isNeg then -value else value
  match integer_literal_suffix_to_type suffix with
  | .error d => .error d
  | .ok t => expr_new_integer t value

/-- C5.  A typed integer literal whose value lies outside the type min/max
is rejected with a range diagnostic and an in-range one resolves to its
type and value; a unary sign applied directly to a literal is folded into
the value before the range check, so resolving Unary(-, 128s8) equals
resolving the literal -128 with suffix s8, which succeeds with value -128
even though resolving 128s8 itself is rejected. -/
theorem integer_literal_range_and_sign_fold :
    (∀ suffix v k, integer_literal_suffix_to_type suffix = .ok (.int k) →
      (v < k.min → resolve_expr_integer suffix v = .error (.belowMin v k.min)) ∧
      (v > k.max → resolve_expr_integer suffix v = .error (.aboveMax v k.max)) ∧
      (k.min ≤ v → v ≤ k.max → resolve_expr_integer suffix v = .ok (.int k, v))) ∧
    (∀ isNeg suffix v, resolve_expr_unary_sign isNeg suffix v =
      resolve_expr_integer suffix (if isNeg then -v else v)) ∧
    (resolve_expr_unary_sign true "s8" 128 = .ok (.int .s8, -128)) ∧
    (resolve_expr_integer "s8" 128 = .error (.aboveMax 128 127)) := by
  refine ⟨?_, ?_, ?_, ?_⟩
  · intro suffix v k h
    have hmm := k.min_le_max
    refine ⟨?_, ?_, ?_⟩
    · intro hlt
      unfold resolve_expr_integer
      rw [h]
      simp [expr_new_integer, hlt]
    · intro hgt
      unfold resolve_expr_integer
      rw [h]
      have : ¬ (v < k.min) := by omega
      simp [expr_new_integer, this, hgt]
    · intro hge hle
      unfold resolve_expr_integer
      rw [h]
      have h1 : ¬ (v < k.min) := by omega
      have h2 : ¬ (v > k.max) := by omega
      simp [expr_new_integer, h1, h2]
  · intro isNeg suffix v
    rfl
  · rfl
  · rfl

/-- Witness for C5: the out-of-range literal 300 with suffix u8 is rejected
below and above as appropriate and 255u8 resolves. -/
theorem integer_literal_range_and_sign_fold_witness :
    resolve_expr_integer "u8" 300 = .error (.aboveMax 300 255) ∧
    resolve_expr_integer "u8" 255 = .ok (.int .u8, 255) := by
  obtain ⟨h1, -, -, -⟩ := integer_literal_range_and_sign_fold
  obtain ⟨-, hhi, hok⟩ := h1 "u8" 300 .u8 (by rfl)
  obtain ⟨-, -, hok2⟩ := h1 "u8" 255 .u8 (by rfl)
  exact ⟨by simpa using hhi (by decide), by simpa using hok2 (by decide) (by decide)⟩

/-! ## Compile-time evaluation of binary arithmetic (src/eval.c lines 33
to 42 and 482 to 544)

The BOP_ADD, BOP_SUB, BOP_MUL and BOP_DIV branches of eval_rvalue compute
the exact big-integer result, reject an out-of-range add/sub/mul result
with a fatal diagnostic naming both operands and the result
(integer_is_out_of_range compares against the result type min/max), reject
a zero right operand of division naming both operands, and otherwise
return the exact value, with division truncated (autil_bigint_divrem). -/

/-- Arithmetic binary operators of the evaluator claim. -/
inductive ArithOp where
  | add | sub | mul | div
deriving DecidableEq

/-- Evaluation errors of the arithmetic branches, carrying the operands
(and for range errors the out-of-range result) that the fatal messages
name. -/
inductive ArithErr where
  | range (lhs rhs res : Int)
  | divZero (lhs rhs : Int)
deriving DecidableEq

/-- Embeds integer_is_out_of_range (src/eval.c lines 33 to 42): the result
is below the type minimum or above the type maximum. -/
def integer_is_out_of_range (k : IntKind) (res : Int) : Bool :=
  res < k.min || res > k.max

/-- Embeds the BOP_ADD, BOP_SUB, BOP_MUL and BOP_DIV branches of
eval_rvalue (src/eval.c lines 482 to 544), with k the type of the binary
expression node: exact big-integer arithmetic, range check for add, sub
and mul, zero check for div, truncated division. -/
def eval_binary_arith (op : ArithOp) (k : IntKind) (lhs rhs : Int) : Except ArithErr Int :=
  match op with
  | .add =>
    let r := lhs + rhs
    if integer_is_out_of_range k r then .error (.range lhs rhs r) else .ok r
  | .sub =>
    let r := lhs - rhs
    if integer_is_out_of_range k r then .error (.range lhs rhs r) else .ok r
  | .mul =>
    let r := lhs * rhs
    if integer_is_out_of_range k r then .error (.range lhs rhs r) else .ok r
  | .div =>
    if rhs = 0 then .error (.divZero lhs rhs) else .ok (Int.tdiv lhs rhs)

/-- Exact mathematical result of each operator (division truncated toward
zero, as the spec states for the big-integer divrem). -/
def exactArith (op : ArithOp) (lhs rhs : Int) : Int :=
  match op with
  | .add => lhs + rhs
  | .sub => lhs - rhs
  | .mul => lhs * rhs
  | .div => Int.tdiv lhs rhs

/-- C6.  Add, sub and mul fail with a range error naming both operands and
the exact out-of-range result whenever that result leaves the result type
min/max, and return the exact result otherwise; division by zero fails
with a divide-by-zero error naming both operands, and division by nonzero
returns the exact truncated quotient. -/
theorem eval_binary_arith_spec (k : IntKind) (lhs rhs : Int) :
    (∀ op, op ≠ ArithOp.div →
      (¬ (k.min ≤ exactArith op lhs rhs ∧ exactArith op lhs rhs ≤ k.max) →
        eval_binary_arith op k lhs rhs = .error (.range lhs rhs (exactArith op lhs rhs))) ∧
      ((k.min ≤ exactArith op lhs rhs ∧ exactArith op lhs rhs ≤ k.max) →
        eval_binary_arith op k lhs rhs = .ok (exactArith op lhs rhs))) ∧
    (rhs = 0 → eval_binary_arith .div k lhs rhs = .error (.divZero lhs rhs)) ∧
    (rhs ≠ 0 → eval_binary_arith .div k lhs rhs = .ok (Int.tdiv lhs rhs)) := by
  refine ⟨?_, ?_, ?_⟩
  · intro op hop
    constructor
    · intro hout
      cases op with
      | add =>
        simp only [exactArith] at hout
        have hr : integer_is_out_of_range k (lhs + rhs) = true := by
          simp only [integer_is_out_of_range, Bool.or_eq_true, decide_eq_true_eq]
          omega
        simp [eval_binary_arith, exactArith, hr]
      | sub =>
        simp only [exactArith] at hout
        have hr : integer_is_out_of_range k (lhs - rhs) = true := by
          simp only [integer_is_out_of_range, Bool.or_eq_true, decide_eq_true_eq]
          omega
        simp [eval_binary_arith, exactArith, hr]
      | mul =>
        simp only [exactArith] at hout
        have hr : integer_is_out_of_range k (lhs * rhs) = true := by
          simp only [integer_is_out_of_range, Bool.or_eq_true, decide_eq_true_eq]
          omega
        simp [eval_binary_arith, exactArith, hr]
      | div => exact absurd rfl hop
    · intro hin
      cases op with
      | add =>
        simp only [exactArith] at hin
        have hr : integer_is_out_of_range k (lhs + rhs) = false := by
          simp only [integer_is_out_of_range, Bool.or_eq_false_iff, decide_eq_false_iff_not]
          omega
        simp [eval_binary_arith, exactArith, hr]
      | sub =>
        simp only [exactArith] at hin
        have hr : integer_is_out_of_range k (lhs - rhs) = false := by
          simp only [integer_is_out_of_range, Bool.or_eq_false_iff, decide_eq_false_iff_not]
          omega
        simp [eval_binary_arith, exactArith, hr]
      | mul =>
        simp only [exactArith] at hin
        have hr : integer_is_out_of_range k (lhs * rhs) = false := by
          simp only [integer_is_out_of_range, Bool.or_eq_false_iff, decide_eq_false_iff_not]
          omega
        simp [eval_binary_arith, exactArith, hr]
      | div => exact absurd rfl hop
  · intro h
    simp [eval_binary_arith, h]
  · intro h
    simp [eval_binary_arith, h]

/-- Witness for C6: over u8, 200 + 100 overflows to the named range error,
200 + 55 returns 255, 7 / 0 is the divide-by-zero error and -7 / 2 is the
truncated quotient -3. -/
theorem eval_binary_arith_spec_witness :
    eval_binary_arith .add .u8 200 100 = .error (.range 200 100 300) ∧
    eval_binary_arith .add .u8 200 55 = .ok 255 ∧
    eval_binary_arith .div .u8 7 0 = .error (.divZero 7 0) ∧
    eval_binary_arith .div .s8 (-7) 2 = .ok (-3) := by
  obtain ⟨h1, h2, h3⟩ := eval_binary_arith_spec .u8 200 100
  obtain ⟨h1b, -, -⟩ := eval_binary_arith_spec .u8 200 55
  obtain ⟨-, h2c, -⟩ := eval_binary_arith_spec .u8 7 0
  obtain ⟨-, -, h3d⟩ := eval_binary_arith_spec .s8 (-7) 2
  refine ⟨?_, ?_, h2c rfl, ?_⟩
  · have := (h1 .add (by decide)).1 (by decide)
    simpa [exactArith] using this
  · have := (h1b .add (by decide)).2 (by decide)
    simpa [exactArith] using this
  · have := h3d (by decide)
    simpa using this

/-! ## Compile-time evaluation of logical binary operators (src/eval.c
lines 441 to 457)

The TIR_EXPR_BINARY case of eval_rvalue evaluates BOTH operands before
switching on the operator; the BOP_OR and BOP_AND branches then combine
the two already-computed boolean payloads.  The fragment embedded here
covers boolean and integer literals and binary or, and, add, sub, mul,
div, which suffices to exercise an error-raising right operand. -/

/-- Type carried by a TIR expression node, restricted to the fragment. -/
inductive CType where
  | tbool
  | tint (k : IntKind)
deriving DecidableEq

/-- Compile-time value of the fragment (struct value restricted to bool
and integer payloads). -/
inductive CValue where
  | vbool (b : Bool)
  | vint (k : IntKind) (v : Int)
deriving DecidableEq

/-- Binary operators of the fragment (enum bop_kind). -/
inductive Bop where
  | bor | band | badd | bsub | bmul | bdiv
deriving DecidableEq

/-- Evaluation outcome errors: a fatal arithmetic diagnostic, or the
assertion failures guarding operand shapes in the C code. -/
inductive EvalFailure where
  | arith (e : ArithErr)
  | stuck
deriving DecidableEq

/-- Typed IR expressions of the fragment: literals and binary nodes, each
binary node carrying its resolved type as in struct tir_expr. -/
inductive TExpr where
  | boolean (b : Bool)
  | integer (k : IntKind) (v : Int)
  | binary (ty : CType) (op : Bop) (lhs rhs : TExpr)

/-- Embeds eval_rvalue on the fragment (src/eval.c lines 61 to 74 and 441
to 544).  Faithfully to the C code, the TIR_EXPR_BINARY case evaluates the
left operand and then the right operand before dispatching on the
operator, so or and and are NOT short-circuiting here. -/
def eval_rvalue : TExpr → Except EvalFailure CValue
  | .boolean b => .ok (.vbool b)
  | .integer k v => .ok (.vint k v)
  | .binary ty op l r =>
    match eval_rvalue l with
    | .error e => .error e
    | .ok vl =>
      match eval_rvalue r with
      | .error e => .error e
      | .ok vr =>
        match op with
        | .bor =>
          match vl, vr with
          | .vbool a, .vbool b => .ok (.vbool (a || b))
          | _, _ => .error .stuck
        | .band =>
          match vl, vr with
          | .vbool a, .vbool b => .ok (.vbool (a && b))
          | _, _ => .error .stuck
        | .badd =>
          match vl, vr, ty with
          | .vint _ a, .vint _ b, .tint k =>
            match eval_binary_arith .add k a b with
            | .error e => .error (.arith e)
            | .ok res => .ok (.vint k res)
          | _, _, _ => .error .stuck
        | .bsub =>
          match vl, vr, ty with
          | .vint _ a, .vint _ b, .tint k =>
            match eval_binary_arith .sub k a b with
            | .error e => .error (.arith e)
            | .ok res => .ok (.vint k res)
          | _, _, _ => .error .stuck
        | .bmul =>
          match vl, vr, ty with
          | .vint _ a, .vint _ b, .tint k =>
            match eval_binary_arith .mul k a b with
            | .error e => .error (.arith e)
            | .ok res => .ok (.vint k res)
          | _, _, _ => .error .stuck
        | .bdiv =>
          match vl, vr, ty with
          | .vint _ a, .vint _ b, .tint k =>
            match eval_binary_arith .div k a b with
            | .error e => .error (.arith e)
            | .ok res => .ok (.vint k res)
          | _, _, _ => .error .stuck

/-- Counterexample to C8 as stated: in the expression true or (1u32 / 0u32)
the left operand is true, yet evaluation fails with the divide-by-zero
error from the right operand instead of producing true, because
eval_rvalue evaluates both operands before dispatching on the operator. -/
theorem short_circuit_counterexample :
    eval_rvalue (.binary .tbool .bor (.boolean true)
        (.binary (.tint .u32) .bdiv (.integer .u32 1) (.integer .u32 0))) =
      .error (.arith (.divZero 1 0)) ∧
    eval_rvalue (.binary .tbool .bor (.boolean true)
        (.binary (.tint .u32) .bdiv (.integer .u32 1) (.integer .u32 0))) ≠
      .ok (.vbool true) := by
  refine ⟨rfl, ?_⟩
  intro h
  cases h

/-- C8 (amended).  Binary or and and are evaluated eagerly: both operands
are always evaluated, the result is the boolean disjunction respectively
conjunction of the two operand values, and an error raised by the right
operand propagates even when the left operand alone would determine the
logical result. -/
theorem logical_or_and_eager :
    (∀ (ty : CType) (l r : TExpr) (vl : CValue) (e : EvalFailure),
      eval_rvalue l = .ok vl → eval_rvalue r = .error e →
      eval_rvalue (.binary ty .bor l r) = .error e ∧
      eval_rvalue (.binary ty .band l r) = .error e) ∧
    (∀ (ty : CType) (l r : TExpr) (a b : Bool),
      eval_rvalue l = .ok (.vbool a) → eval_rvalue r = .ok (.vbool b) →
      eval_rvalue (.binary ty .bor l r) = .ok (.vbool (a || b)) ∧
      eval_rvalue (.binary ty .band l r) = .ok (.vbool (a && b))) := by
  constructor
  · intro ty l r vl e hl hr
    constructor <;> (unfold eval_rvalue; rw [hl, hr])
  · intro ty l r a b hl hr
    constructor <;> (unfold eval_rvalue; rw [hl, hr])

/-- Witness for the amended C8: with left operand true and right operand
1u32 / 0u32 the or expression propagates the divide-by-zero error, and
with literal operands true, false the or and and results are the boolean
combinations. -/
theorem logical_or_and_eager_witness :
    eval_rvalue (.binary .tbool .bor (.boolean true)
        (.binary (.tint .u32) .bdiv (.integer .u32 1) (.integer .u32 0))) =
      .error (.arith (.divZero 1 0)) ∧
    eval_rvalue (.binary .tbool .band (.boolean true) (.boolean false)) =
      .ok (.vbool false) := by
  obtain ⟨h1, h2⟩ := logical_or_and_eager
  constructor
  · exact (h1 .tbool (.boolean true)
      (.binary (.tint .u32) .bdiv (.integer .u32 1) (.integer .u32 0))
      (.vbool true) (.arith (.divZero 1 0)) rfl rfl).1
  · exact (h2 .tbool (.boolean true) (.boolean false) true false rfl rfl).2

/-! ## Compile-time value equality (src/tir.c lines 333 to 341 and 1342
to 1393)

type_can_compare_equality reports that bool, byte, the typed integers,
function and pointer types support equality comparison, and the resolver
(src/resolve.c line 3853) admits == and != exactly on those types.  The
compile-time comparator value_eq, however, marks the TYPE_POINTER case
UNREACHABLE alongside array and slice, so a pointer comparison that
reaches compile-time evaluation aborts instead of producing a boolean. -/

/-- Enum type_kind from src/tir.c. -/
inductive TypeKind where
  | void | bool | byte
  | u8 | s8 | u16 | s16 | u32 | s32 | u64 | s64 | usize | ssize
  | function | pointer | array | slice
deriving DecidableEq

/-- Embeds type_is_integer (src/tir.c lines 301 to 311). -/
def type_is_integer (k : TypeKind) : Bool :=
  match k with
  | .u8 | .s8 | .u16 | .s16 | .u32 | .s32 | .u64 | .s64 | .usize | .ssize => true
  | _ => false

/-- Embeds type_can_compare_equality (src/tir.c lines 333 to 341). -/
def type_can_compare_equality (k : TypeKind) : Bool :=
  k = .bool || k = .byte || type_is_integer k || k = .function || k = .pointer

/-- Compile-time values as switched on by value_eq, with the payload each
comparable case reads; a pointer value carries its static address (name
and byte offset). -/
inductive VValue where
  | vvoid
  | vbool (b : Bool)
  | vbyte (n : Nat)
  | vint (k : IntKind) (v : Int)
  | vfunction (id : Nat)
  | vpointer (name : String) (offset : Nat)
  | varray (elems : List VValue)
  | vslice (ptrName : String) (offset : Nat) (count : Int)

/-- Outcomes of value_eq that are not a boolean: the UNREACHABLE cases of
its switch (pointer, array, slice), and the violation of the lhs->type ==
rhs->type assertion when the operands have different kinds. -/
inductive CmpUndef where
  | unreachable
  | typeMismatch
deriving DecidableEq

/-- Embeds value_eq (src/tir.c lines 1342 to 1393): booleans, bytes,
integers and function handles compare by payload; the pointer, array and
slice cases are the UNREACHABLE branches of the switch. -/
def value_eq (lhs rhs : VValue) : Except CmpUndef Bool :=
  match lhs, rhs with
  | .vvoid, .vvoid => .ok true
  | .vbool a, .vbool b => .ok (a == b)
  | .vbyte a, .vbyte b => .ok (a == b)
  | .vint _ a, .vint _ b => .ok (a == b)
  | .vfunction a, .vfunction b => .ok (a == b)
  | .vpointer _ _, .vpointer _ _ => .error .unreachable
  | .varray _, .varray _ => .error .unreachable
  | .vslice _ _ _, .vslice _ _ _ => .error .unreachable
  | _, _ => .error .typeMismatch

/-- C9 is violated by the code: type_can_compare_equality admits pointer
operands for ==, and the spec states equality is defined for pointers, yet
value_eq reaches its undefined-comparison (UNREACHABLE) branch for two
pointer values of the same pointer type instead of returning a boolean.
Evaluated here at the concrete comparison of a static pointer with
itself. -/
theorem value_eq_pointer_unreachable :
    type_can_compare_equality .pointer = true ∧
    value_eq (.vpointer "x" 0) (.vpointer "x" 0) = .error .unreachable := by
  exact ⟨rfl, rfl⟩

/-! ## Compile-time slice of an array (src/eval.c lines 253 to 314)

The TIR_EXPR_SLICE case of eval_rvalue, for an array left-hand side of
count N, rejects begin with begin >= N and end with end > N, then builds
the slice value whose pointer is the array address advanced by begin times
the element size and whose count is the big integer end - begin. -/

/-- Out-of-bounds diagnostic of the slice case, naming the array count and
the received index. -/
inductive SliceErr where
  | indexOutOfBounds (count received : Nat)
deriving DecidableEq

/-- Embeds the TYPE_ARRAY branch of the TIR_EXPR_SLICE case of eval_rvalue
(src/eval.c lines 278 to 314), after begin and end have been converted to
machine naturals: bounds checks, then the pair of the advanced pointer
offset and the big-integer count end - begin. -/
def eval_slice_array (count begin_uz end_uz elemSize offset : Nat) :
    Except SliceErr (Nat × Int) :=
  if begin_uz ≥ count then .error (.indexOutOfBounds count begin_uz)
  else if end_uz > count then .error (.indexOutOfBounds count end_uz)
  else .ok (offset + begin_uz * elemSize, (end_uz : Int) - (begin_uz : Int))

/-- C10.  Slicing an array of count N fails with an index out-of-bounds
error whenever begin >= N, in particular for the empty slice a[N:N] at the
very end of the array, while end == N itself passes the end bound check
(only end > N is rejected) and an accepted slice has count end - begin. -/
theorem slice_bounds_check (count begin_uz end_uz elemSize offset : Nat) :
    (begin_uz ≥ count →
      eval_slice_array count begin_uz end_uz elemSize offset =
        .error (.indexOutOfBounds count begin_uz)) ∧
    (eval_slice_array count count count elemSize offset =
      .error (.indexOutOfBounds count count)) ∧
    (begin_uz < count → end_uz ≤ count →
      eval_slice_array count begin_uz end_uz elemSize offset =
        .ok (offset + begin_uz * elemSize, (end_uz : Int) - (begin_uz : Int))) := by
  refine ⟨?_, ?_, ?_⟩
  · intro h
    simp [eval_slice_array, h]
  · simp [eval_slice_array]
  · intro h1 h2
    have h3 : ¬ (begin_uz ≥ count) := by omega
    have h4 : ¬ (end_uz > count) := by omega
    simp [eval_slice_array, h3, h4]

/-- Witness for C10 on the array of count 3 with element size 4 at offset
0: the empty slice a[3:3] is rejected, a[1:3] with end equal to the count
is accepted with count 2, and a[0:4] is rejected for its end index. -/
theorem slice_bounds_check_witness :
    eval_slice_array 3 3 3 4 0 = .error (.indexOutOfBounds 3 3) ∧
    eval_slice_array 3 1 3 4 0 = .ok (4, 2) := by
  obtain ⟨-, h2, -⟩ := slice_bounds_check 3 3 3 4 0
  obtain ⟨-, -, h3⟩ := slice_bounds_check 3 1 3 4 0
  exact ⟨h2, by simpa using h3 (by decide) (by decide)⟩

/-! ## Template instantiation (src/resolve.c lines 852 to 971)

For a struct template, xget_template_instance builds the mangled instance
name Original[[arg0, arg1, ...]] from the resolved argument type names,
returns the cached instance symbol when the name is already in the
template's private instance table, and otherwise resolves a synthesized
instance declaration, inserts the new instance symbol into the cache, and
only then completes the struct's fields (complete_struct), whose member
resolution may re-enter xget_template_instance for self-referential
templates.  Each struct member that names the template again is modelled
by the argument list it instantiates the template with. -/

/-- Struct template: its declared name and, for each member whose typespec
re-instantiates this same template during field completion, the list of
argument type names of that instantiation. -/
structure Template where
  name : String
  fieldArgs : List (List String)

/-- Template-instantiation state: the instance cache of the template
(mangled instance name to instance symbol) and the freshness counter
standing for arena allocation of instance symbols. -/
structure TState where
  cache : List (String × Nat)
  next : Nat
deriving DecidableEq

/-- Mangled instance name built by xget_template_instance (src/resolve.c
lines 876 to 888): the template name followed by the bracketed
comma-separated argument type names. -/
def mangled_instance_name (tmplName : String) (args : List String) : String :=
  tmplName ++ "[[" ++ String.intercalate ", " args ++ "]]"

/-- Embeds the struct branch of xget_template_instance (src/resolve.c
lines 852 to 971) with a recursion-depth fuel: look the mangled name up in
the instance cache and return the cached symbol if present; otherwise
allocate the instance symbol (resolve_decl_struct), insert it into the
cache, and only afterwards complete the struct's fields, re-entering the
instantiation for each member that names the template again. -/
def xget_template_instance : Nat → Template → List String → TState → Option (Nat × TState)
  | 0, _, _, _ => none
  | fuel + 1, tmpl, args, st =>
    match rlookup st.cache (mangled_instance_name tmpl.name args) with
    | some id => some (id, st)
    | none =>
      match tmpl.fieldArgs.foldlM
          (fun s a => (xget_template_instance fuel tmpl a s).map Prod.snd)
          (⟨(mangled_instance_name tmpl.name args, st.next) :: st.cache, st.next + 1⟩ : TState) with
      | none => none
      | some st3 => some (st.next, st3)

/-- Cached bindings survive an instantiation: the instance cache only ever
receives bindings for names that were absent, so an existing binding is
still the first match afterwards. -/
theorem xget_cache_preserved (fuel : Nat) :
    ∀ (tmpl : Template) (args : List String) (st : TState) (id : Nat) (st2 : TState),
      xget_template_instance fuel tmpl args st = some (id, st2) →
      ∀ n i, rlookup st.cache n = some i → rlookup st2.cache n = some i := by
  induction fuel with
  | zero =>
    intro tmpl args st id st2 h
    simp [xget_template_instance] at h
  | succ fuel ih =>
    have hfold : ∀ (tmpl : Template) (l : List (List String)) (st0 st1 : TState),
        l.foldlM (fun s a => (xget_template_instance fuel tmpl a s).map Prod.snd) st0 =
          some st1 →
        ∀ n i, rlookup st0.cache n = some i → rlookup st1.cache n = some i := by
      intro tmpl l
      induction l with
      | nil =>
        intro st0 st1 h n i hi
        simp [List.foldlM_nil] at h
        exact h ▸ hi
      | cons a rest ihl =>
        intro st0 st1 h n i hi
        rw [List.foldlM_cons] at h
        cases hx : xget_template_instance fuel tmpl a st0 with
        | none => rw [hx] at h; simp at h
        | some p =>
          rw [hx] at h
          simp only [Option.map_some, Option.bind_eq_bind, Option.some_bind] at h
          exact ihl p.2 st1 h n i (ih tmpl a st0 p.1 p.2 (by rw [hx]) n i hi)
    intro tmpl args st id st2 h
    intro n i hi
    rw [xget_template_instance] at h
    cases hl : rlookup st.cache (mangled_instance_name tmpl.name args) with
    | some cached =>
      rw [hl] at h
      simp only [Option.some.injEq, Prod.mk.injEq] at h
      exact h.2 ▸ hi
    | none =>
      rw [hl] at h
      cases hf : tmpl.fieldArgs.foldlM
          (fun s a => (xget_template_instance fuel tmpl a s).map Prod.snd)
          (⟨(mangled_instance_name tmpl.name args, st.next) :: st.cache, st.next + 1⟩ : TState) with
      | none => rw [hf] at h; simp at h
      | some st3 =>
        rw [hf] at h
        simp only [Option.some.injEq, Prod.mk.injEq] at h
        have hstep : rlookup
            ((mangled_instance_name tmpl.name args, st.next) :: st.cache) n = some i := by
          rw [rlookup_cons]
          have : mangled_instance_name tmpl.name args ≠ n := by
            intro he
            rw [he] at hl
            rw [hl] at hi
            cases hi
          simp [this, hi]
        have := hfold tmpl tmpl.fieldArgs _ st3 hf n i hstep
        exact h.2 ▸ this

/-- A successful instantiation leaves the cache binding the mangled name
to the returned instance symbol. -/
theorem xget_result_cached (fuel : Nat) (tmpl : Template) (args : List String)
    (st : TState) (id : Nat) (st2 : TState)
    (h : xget_template_instance fuel tmpl args st = some (id, st2)) :
    rlookup st2.cache (mangled_instance_name tmpl.name args) = some id := by
  cases fuel with
  | zero => simp [xget_template_instance] at h
  | succ fuel =>
    rw [xget_template_instance] at h
    cases hl : rlookup st.cache (mangled_instance_name tmpl.name args) with
    | some cached =>
      rw [hl] at h
      simp only [Option.some.injEq, Prod.mk.injEq] at h
      rw [← h.2, ← h.1]
      exact hl
    | none =>
      rw [hl] at h
      cases hf : tmpl.fieldArgs.foldlM
          (fun s a => (xget_template_instance fuel tmpl a s).map Prod.snd)
          (⟨(mangled_instance_name tmpl.name args, st.next) :: st.cache, st.next + 1⟩ : TState) with
      | none => rw [hf] at h; simp at h
      | some st3 =>
        rw [hf] at h
        simp only [Option.some.injEq, Prod.mk.injEq] at h
        have hfold : ∀ (l : List (List String)) (st0 st1 : TState),
            l.foldlM (fun s a => (xget_template_instance fuel tmpl a s).map Prod.snd) st0 =
              some st1 →
            ∀ n i, rlookup st0.cache n = some i → rlookup st1.cache n = some i := by
          intro l
          induction l with
          | nil =>
            intro st0 st1 hh n i hi
            simp [List.foldlM_nil] at hh
            exact hh ▸ hi
          | cons a rest ihl =>
            intro st0 st1 hh n i hi
            rw [List.foldlM_cons] at hh
            cases hx : xget_template_instance fuel tmpl a st0 with
            | none => rw [hx] at hh; simp at hh
            | some p =>
              rw [hx] at hh
              simp only [Option.map_some, Option.bind_eq_bind, Option.some_bind] at hh
              exact ihl p.2 st1 hh n i
                (xget_cache_preserved fuel tmpl a st0 p.1 p.2 (by rw [hx]) n i hi)
        have hstep : rlookup
            ((mangled_instance_name tmpl.name args, st.next) :: st.cache)
            (mangled_instance_name tmpl.name args) = some st.next := by
          rw [rlookup_cons]
          simp
        have := hfold tmpl.fieldArgs _ st3 hf (mangled_instance_name tmpl.name args) st.next hstep
        rw [← h.2, ← h.1]
        exact this

/-- C2.  Template instantiation is memoized under the mangled instance
name: after a successful instantiation any further instantiation of the
same template with the same argument types returns the cached instance
symbol and leaves the state unchanged; and because the instance symbol is
cached before the struct's fields are completed, a struct template whose
field completion re-instantiates the template with the same arguments
succeeds at the constant recursion depth two instead of recursing
infinitely. -/
theorem template_instantiation_memoized :
    (∀ (fuel : Nat) (tmpl : Template) (args : List String) (st : TState)
        (id : Nat) (st2 : TState) (fuel2 : Nat),
      xget_template_instance fuel tmpl args st = some (id, st2) →
      xget_template_instance (fuel2 + 1) tmpl args st2 = some (id, st2)) ∧
    (∀ (tmpl : Template) (args : List String) (st : TState),
      tmpl.fieldArgs = [args] →
      rlookup st.cache (mangled_instance_name tmpl.name args) = none →
      xget_template_instance 2 tmpl args st =
        some (st.next, ⟨(mangled_instance_name tmpl.name args, st.next) :: st.cache, st.next + 1⟩)) := by
  constructor
  · intro fuel tmpl args st id st2 fuel2 h
    have hc := xget_result_cached fuel tmpl args st id st2 h
    rw [xget_template_instance, hc]
  · intro tmpl args st hfields hnone
    rw [xget_template_instance, hnone, hfields]
    rw [List.foldlM_cons]
    rw [show xget_template_instance 1 tmpl args
        (⟨(mangled_instance_name tmpl.name args, st.next) :: st.cache, st.next + 1⟩ : TState) =
        some (st.next, ⟨(mangled_instance_name tmpl.name args, st.next) :: st.cache, st.next + 1⟩) by
      rw [xget_template_instance]
      rw [rlookup_cons]
      simp]
    simp [List.foldlM_nil]

/-- Witness for C2: instantiating the self-referential template Foo, whose
single relevant member names Foo[[u32]] again, at argument u32 from an
empty cache terminates with the fresh instance symbol 0, and a repeated
instantiation from the resulting state returns the same symbol with the
state unchanged. -/
theorem template_instantiation_memoized_witness :
    xget_template_instance 2 ⟨"Foo", [["u32"]]⟩ ["u32"] ⟨[], 0⟩ =
      some (0, ⟨[("Foo[[u32]]", 0)], 1⟩) ∧
    xget_template_instance 7 ⟨"Foo", [["u32"]]⟩ ["u32"] ⟨[("Foo[[u32]]", 0)], 1⟩ =
      some (0, ⟨[("Foo[[u32]]", 0)], 1⟩) := by
  obtain ⟨h1, h2⟩ := template_instantiation_memoized
  have hrun := h2 ⟨"Foo", [["u32"]]⟩ ["u32"] ⟨[], 0⟩ rfl (by decide)
  constructor
  · exact hrun.trans (by decide)
  · exact h1 2 ⟨"Foo", [["u32"]]⟩ ["u32"] ⟨[], 0⟩ 0
      ⟨[("Foo[[u32]]", 0)], 1⟩ 6 (hrun.trans (by decide))

/-! ## Import resolution (src/resolve.c lines 1240 to 1295)

resolve_import_file canonicalizes the import path, consults the global
loaded-modules cache (lookup_module), loads the module when it is absent
(load_module: parse and resolve, which in turn resolves the imports of
that module), fails with the circular-dependency diagnostic when the
cached module is not yet fully loaded, and finally merges the export
table of the loaded module into the symbol table of the importer. -/

/-- Program under compilation for the import claim: each module path with
the list of import paths its source declares.  Path search and
canonicalization (canonical_import_path) are taken as the identity: the
claim is about the cache behaviour on canonical paths. -/
abbrev ImportGraph := List (String × List String)

/-- Import lists of a module path; a path without an entry has none. -/
def getImports (prog : ImportGraph) (m : String) : List String :=
  match rlookup prog m with
  | some l => l
  | none => []

/-- Global import-resolution state: the loaded-modules cache mapping each
canonical path to its loaded flag (false while the module is still in the
middle of loading), and the record of export-table merges performed, as
pairs of the importing module and the imported path. -/
structure IState where
  cache : List (String × Bool)
  merges : List (String × String)
deriving DecidableEq

/-- Failures of import resolution: the circular-dependency fatal
diagnostic of src/resolve.c line 1283, or recursion-depth exhaustion of
the embedding. -/
inductive ImportFailure where
  | circularImport (path : String)
  | fuelExhausted
deriving DecidableEq

/-- Embeds merge_symbol_table as invoked at src/resolve.c line 1285,
recording that the exports of the imported path were merged into the
module that performed the import. -/
def mergeExports (importer path : String) (st : IState) : IState :=
  ⟨st.cache, (importer, path) :: st.merges⟩

/-- Modelled from the spec: the loaded-modules cache lifecycle of
lookup_module and load_module, which live outside src/ (only their callers
are in src/resolve.c).  Following spec section 4.F.2, load_module inserts
the module into the cache as not yet fully loaded, parses and resolves it
(resolving its imports, embedded here as the fold over its import list),
and then marks it fully loaded.  Around that lifecycle this definition
embeds resolve_import_file itself (src/resolve.c lines 1240 to 1286): a
cache hit that is fully loaded merges the exports, a cache hit still in
the middle of loading is the fatal circular-dependency diagnostic, and a
miss loads the module and then merges its exports. -/
def resolve_import_file : Nat → ImportGraph → String → String → IState →
    Except ImportFailure IState
  | 0, _, _, _, _ => .error .fuelExhausted
  | fuel + 1, prog, importer, path, st =>
    match rlookup st.cache path with
    | some true => .ok (mergeExports importer path st)
    | some false => .error (.circularImport path)
    | none =>
      match (getImports prog path).foldlM
          (fun s p => resolve_import_file fuel prog path p s)
          (⟨(path, false) :: st.cache, st.merges⟩ : IState) with
      | .error e => .error e
      | .ok st2 => .ok (mergeExports importer path ⟨(path, true) :: st2.cache, st2.merges⟩)

theorem rif_loaded (fuel : Nat) (prog : ImportGraph) (importer path : String) (st : IState)
    (h : rlookup st.cache path = some true) :
    resolve_import_file (fuel + 1) prog importer path st =
      .ok (mergeExports importer path st) := by
  rw [resolve_import_file, h]

theorem rif_circular (fuel : Nat) (prog : ImportGraph) (importer path : String) (st : IState)
    (h : rlookup st.cache path = some false) :
    resolve_import_file (fuel + 1) prog importer path st =
      .error (.circularImport path) := by
  rw [resolve_import_file, h]

theorem rif_load (fuel : Nat) (prog : ImportGraph) (importer path : String) (st : IState)
    (h : rlookup st.cache path = none) :
    resolve_import_file (fuel + 1) prog importer path st =
      match (getImports prog path).foldlM
          (fun s p => resolve_import_file fuel prog path p s)
          (⟨(path, false) :: st.cache, st.merges⟩ : IState) with
      | .error e => .error e
      | .ok st2 => .ok (mergeExports importer path ⟨(path, true) :: st2.cache, st2.merges⟩) := by
  rw [resolve_import_file, h]

theorem except_foldlM_cons {α β ε : Type} (f : β → α → Except ε β) (b : β) (a : α)
    (l : List α) :
    (a :: l).foldlM f b =
      match f b a with
      | .error e => .error e
      | .ok b2 => l.foldlM f b2 := by
  rw [List.foldlM_cons]
  cases f b a <;> rfl

theorem rlookup_mem {α : Type} (l : List (String × α)) (n : String) (v : α)
    (h : rlookup l n = some v) : (n, v) ∈ l := by
  induction l with
  | nil => simp [rlookup] at h
  | cons kv rest ih =>
    obtain ⟨k, w⟩ := kv
    rw [rlookup_cons] at h
    by_cases hk : k = n
    · simp [hk] at h
      simp [hk, h]
    · simp [hk] at h
      exact List.mem_cons_of_mem _ (ih h)

/-- Modules whose loading is still in progress all rank strictly above the
given rank (rank decreases along import edges, so the in-progress modules
are exactly the ancestors of the module about to be loaded). -/
def NoFalseBelow (rank : String → Nat) (r : Nat) (st : IState) : Prop :=
  ∀ q, rlookup st.cache q = some false → r < rank q

/-- Successful loading adds no in-progress cache entries: every module
marked not-yet-loaded afterwards was already marked so before. -/
def FalseSubset (st2 st : IState) : Prop :=
  ∀ q, rlookup st2.cache q = some false → rlookup st.cache q = some false

/-- Acyclicity argument for C7: when a rank function decreases along
every import edge of the program, loading any module with enough fuel
succeeds and leaves no new in-progress entries in the cache. -/
theorem import_dag_success (prog : ImportGraph) (rank : String → Nat)
    (hr : ∀ pr ∈ prog, ∀ p ∈ pr.2, rank p < rank pr.1) :
    ∀ n path, rank path < n → ∀ importer st fuel,
      rank path + 2 ≤ fuel → NoFalseBelow rank (rank path) st →
      ∃ st2, resolve_import_file fuel prog importer path st = .ok st2 ∧ FalseSubset st2 st := by
  intro n
  induction n using Nat.strong_induction_on with
  | _ n ih =>
    intro path hpath importer st fuel hfuel hnf
    obtain ⟨f, rfl⟩ : ∃ f, fuel = f + 1 := ⟨fuel - 1, by omega⟩
    cases hl : rlookup st.cache path with
    | some b =>
      cases b with
      | true =>
        refine ⟨mergeExports importer path st, rif_loaded f prog importer path st hl, ?_⟩
        intro q hq
        exact hq
      | false => exact absurd (hnf path hl) (by omega)
    | none =>
      have hlist : ∀ l : List String, (∀ p ∈ l, rank p < rank path) →
          ∀ st0 : IState, (∀ q, rlookup st0.cache q = some false → rank path ≤ rank q) →
          ∃ st1, l.foldlM (fun s p => resolve_import_file f prog path p s) st0 = .ok st1 ∧
            FalseSubset st1 st0 := by
        intro l
        induction l with
        | nil =>
          intro _ st0 _
          exact ⟨st0, rfl, fun q hq => hq⟩
        | cons p ps ihl =>
          intro hmem st0 h0
          have hp : rank p < rank path := hmem p (List.mem_cons_self p ps)
          have hpfuel : rank p + 2 ≤ f := by omega
          have hpnf : NoFalseBelow rank (rank p) st0 := by
            intro q hq
            have h1 := h0 q hq
            omega
          obtain ⟨st1, heq1, hsub1⟩ := ih (rank path) hpath p hp path st0 f hpfuel hpnf
          have hmem2 : ∀ q ∈ ps, rank q < rank path := by
            intro q hq
            exact hmem q (List.mem_cons_of_mem p hq)
          obtain ⟨st2, heq2, hsub2⟩ := ihl hmem2 st1 (fun q hq => h0 q (hsub1 q hq))
          refine ⟨st2, ?_, fun q hq => hsub1 q (hsub2 q hq)⟩
          rw [except_foldlM_cons, heq1]
          exact heq2
      have hedges : ∀ p ∈ getImports prog path, rank p < rank path := by
        intro p hp
        unfold getImports at hp
        cases hg : rlookup prog path with
        | none => rw [hg] at hp; simp at hp
        | some imps =>
          rw [hg] at hp
          exact hr (path, imps) (rlookup_mem prog path imps hg) p hp
      obtain ⟨st2, heq, hsub⟩ := hlist (getImports prog path) hedges
        (⟨(path, false) :: st.cache, st.merges⟩ : IState)
        (by
          intro q hq
          rw [rlookup_cons] at hq
          by_cases hpq : path = q
          · subst hpq
            omega
          · simp [hpq] at hq
            have := hnf q hq
            omega)
      refine ⟨mergeExports importer path ⟨(path, true) :: st2.cache, st2.merges⟩, ?_, ?_⟩
      · rw [rif_load f prog importer path st hl, heq]
      · intro q hq
        have hq2 : rlookup ((path, true) :: st2.cache) q = some false := hq
        rw [rlookup_cons] at hq2
        by_cases hpq : path = q
        · simp [hpq] at hq2
        · simp [hpq] at hq2
          have := hsub q hq2
          have h3 : rlookup ((path, false) :: st.cache) q = some false := this
          rw [rlookup_cons] at h3
          simp [hpq] at h3
          exact h3

/-- C7.  An import whose canonical path is in the loaded-modules cache but
whose module is not yet fully loaded fails with the circular-import error;
an import whose path is absent from the cache loads the module, marks it
fully loaded, and merges its export table into the importer; and whenever
a rank function certifies the import graph acyclic, resolution of any
single import succeeds given enough fuel. -/
theorem circular_import_detection :
    (∀ (fuel : Nat) (prog : ImportGraph) (importer path : String) (st : IState),
      rlookup st.cache path = some false →
      resolve_import_file (fuel + 1) prog importer path st =
        .error (.circularImport path)) ∧
    (∀ (fuel : Nat) (prog : ImportGraph) (importer path : String) (st st2 : IState),
      rlookup st.cache path = none →
      resolve_import_file (fuel + 1) prog importer path st = .ok st2 →
      rlookup st2.cache path = some true ∧ (importer, path) ∈ st2.merges) ∧
    (∀ (prog : ImportGraph) (rank : String → Nat),
      (∀ pr ∈ prog, ∀ p ∈ pr.2, rank p < rank pr.1) →
      ∀ (importer path : String) (st : IState) (fuel : Nat),
        rank path + 2 ≤ fuel → NoFalseBelow rank (rank path) st →
        ∃ st2, resolve_import_file fuel prog importer path st = .ok st2) := by
  refine ⟨?_, ?_, ?_⟩
  · intro fuel prog importer path st h
    exact rif_circular fuel prog importer path st h
  · intro fuel prog importer path st st2 hnone hok
    rw [rif_load fuel prog importer path st hnone] at hok
    cases hf : (getImports prog path).foldlM
        (fun s p => resolve_import_file fuel prog path p s)
        (⟨(path, false) :: st.cache, st.merges⟩ : IState) with
    | error e => rw [hf] at hok; cases hok
    | ok st3 =>
      rw [hf] at hok
      simp only [Except.ok.injEq] at hok
      rw [← hok]
      constructor
      · simp [mergeExports, rlookup_cons]
      · simp [mergeExports]
  · intro prog rank hr importer path st fuel hfuel hnf
    obtain ⟨st2, heq, -⟩ := import_dag_success prog rank hr (rank path + 1) path
      (by omega) importer st fuel hfuel hnf
    exact ⟨st2, heq⟩

/-- Witness for C7: a cache entry still loading makes the import of b
fail with the circular-import error; importing lib into an empty cache
loads it, marks it loaded and records the merge; and the diamond program
in which a imports b and c, each importing d, is fully resolved with the
rank certificate a 2, b and c 1, d 0. -/
theorem circular_import_detection_witness :
    resolve_import_file 1 [] "a" "b" ⟨[("b", false)], []⟩ =
      .error (.circularImport "b") ∧
    (rlookup (⟨[("lib", true), ("lib", false)], [("main", "lib")]⟩ : IState).cache "lib" =
        some true ∧
      ("main", "lib") ∈ (⟨[("lib", true), ("lib", false)], [("main", "lib")]⟩ : IState).merges) ∧
    (∃ st2, resolve_import_file 4 [("a", ["b", "c"]), ("b", ["d"]), ("c", ["d"])]
      "root" "a" ⟨[], []⟩ = .ok st2) := by
  obtain ⟨h1, h2, h3⟩ := circular_import_detection
  refine ⟨h1 0 [] "a" "b" ⟨[("b", false)], []⟩ (by decide), ?_, ?_⟩
  · exact h2 0 [] "main" "lib" ⟨[], []⟩ ⟨[("lib", true), ("lib", false)], [("main", "lib")]⟩
      (by decide) (by rfl)
  · exact h3 [("a", ["b", "c"]), ("b", ["d"]), ("c", ["d"])]
      (fun s => if s = "a" then 2 else if s = "b" then 1 else if s = "c" then 1 else 0)
      (by decide) "root" "a" ⟨[], []⟩ 4 (by decide)
      (by intro q hq; simp [rlookup] at hq)

end Sunder
